import Mathlib

/-!
Verification of the probabilistic-programming core:
`Distribution` / `JointDistribution` and the joint calling-convention
resolver (`_resolve_value_from_args`), the joint measure methods, and the
windowed-adaptation scheduler.

Python values passed to the resolver and the measure methods are nested
structures (tensors, `None`, lists/tuples, dicts); we embed them as the
`PyStruct` tree below.  Tensors are embedded as a static shape plus
row-major integer data; the opaque backend transcendentals (`tf.exp`,
`tf.math.log`) are passed in as function parameters since the backend is an
external collaborator.
-/

namespace Probability

/-- A concrete (static-shape) tensor: shape plus row-major data. -/
structure Tensor where
  shape : List Nat
  data : List Int
deriving DecidableEq, Repr

/-- A nested Python structure with atoms of type `α` (mirrors what `tf.nest`
traverses): an atom, a list/tuple, or a dict (`ordered = false` models a
plain `dict`, `ordered = true` an `OrderedDict`). -/
inductive PyStruct (α : Type) where
  | atom : α → PyStruct α
  | list : List (PyStruct α) → PyStruct α
  | dict : Bool → List (String × PyStruct α) → PyStruct α

/-- A Python runtime value: atoms are either `None` (`Option.none`) or a
tensor. -/
abbrev PyVal := PyStruct (Option Tensor)

/-- A dtype structure: atoms are (opaque) element dtypes. -/
abbrev DTypeStruct := PyStruct Unit

/-- Python `len()` of a structure's top level (joint-model dtypes are always
containers; an atom would raise `TypeError` in Python and never occurs as a
joint dtype, so we give it length 0). -/
def pyLen : PyStruct α → Nat
  | .atom _ => 0
  | .list xs => xs.length
  | .dict _ xs => xs.length

/-- `tf.nest.flatten`: the list of atoms of a structure.  (`tf.nest` visits
dict entries in sorted-key order; only the collection of atoms matters for
the properties below, so we visit dict entries in insertion order.) -/
def pyFlatten : PyStruct α → List α
  | .atom a => [a]
  | .list xs => xs.attach.flatMap fun x => pyFlatten x.1
  | .dict _ xs => xs.attach.flatMap fun kv => pyFlatten kv.1.2
termination_by s => sizeOf s
decreasing_by
  · have := List.sizeOf_lt_of_mem x.2
    simp only [PyStruct.list.sizeOf_spec]
    omega
  · have h1 := List.sizeOf_lt_of_mem kv.2
    have h2 : sizeOf kv.1.2 < sizeOf kv.1 := by
      obtain ⟨⟨k, v⟩, _⟩ := kv
      simp only [Prod.mk.sizeOf_spec]
      omega
    simp only [PyStruct.dict.sizeOf_spec]
    omega

/-- A flat serialization of a structure's nesting skeleton: atom contents and
collection types are erased, and dict entries are canonicalized by sorting on
keys (dict key *order* is irrelevant to `tf.nest` structure comparison). -/
inductive ShapeTok where
  | atomT : ShapeTok
  | openL : ShapeTok
  | closeL : ShapeTok
  | openD : ShapeTok
  | closeD : ShapeTok
  | keyT : String → ShapeTok
deriving DecidableEq

/-- Serialize the nesting skeleton of a structure (see `ShapeTok`). -/
def skelToks : PyStruct α → List ShapeTok
  | .atom _ => [.atomT]
  | .list xs => .openL :: (xs.attach.flatMap fun x => skelToks x.1) ++ [.closeL]
  | .dict _ xs =>
      .openD ::
        (((xs.attach.map fun kv => (kv.1.1, skelToks kv.1.2)).mergeSort
            fun a b => a.1 ≤ b.1).flatMap fun p => .keyT p.1 :: p.2)
        ++ [.closeD]
termination_by s => sizeOf s
decreasing_by
  · have := List.sizeOf_lt_of_mem x.2
    simp only [PyStruct.list.sizeOf_spec]
    omega
  · have h1 := List.sizeOf_lt_of_mem kv.2
    have h2 : sizeOf kv.1.2 < sizeOf kv.1 := by
      obtain ⟨⟨k, v⟩, _⟩ := kv
      simp only [Prod.mk.sizeOf_spec]
      omega
    simp only [PyStruct.dict.sizeOf_spec]
    omega

/-- `tf.nest.assert_same_structure(a, b, check_types=False)` as a Boolean:
same nesting shape, ignoring atom contents, collection types and dict
ordering. -/
def sameStructure (a : PyStruct α) (b : PyStruct β) : Bool :=
  skelToks a = skelToks b

/-- The Python `None` test (`v is None`) on an embedded value. -/
def PyStruct.isNoneVal : PyVal → Bool
  | .atom Option.none => true
  | _ => false

/-- `dict.pop(k)`: the keyword mapping without key `k` (Python dict keys are
unique, so removing every binding of `k` agrees with removing the one). -/
def removeKey (k : String) (l : List (String × PyVal)) : List (String × PyVal) :=
  l.filter fun kv => kv.1 != k

/-- `isinstance(dtype, dict) and not isinstance(dtype, collections.OrderedDict)`. -/
def isUnorderedDict : PyStruct α → Bool
  | .dict false _ => true
  | _ => false

/-- Errors raised by `_resolve_value_from_args`, with the data each message
interpolates. -/
inductive ResolveError where
  | countMismatch (flatNames : List String) (numComponentsSpecified : Nat)
      (args : List PyVal) (kwargs : List (String × PyVal))
  | unorderedPositionalArgs (args : List PyVal)
  | indexError

/-- The generator `kwargs[k] if k in kwargs else args[i] for i, k in
enumerate(flat_names)` in `_resolve_value_from_args`; running off the end of
`args` is Python's `IndexError`, embedded as `Option.none`. -/
def buildFlatValue (flatNames : List String) (kwargs : List (String × PyVal))
    (args : List PyVal) : Option (List PyVal) :=
  flatNames.enum.mapM fun ik =>
    match kwargs.lookup ik.2 with
    | some v => some v
    | none => args.get? ik.1

/-- `matched_kwargs = {k for k in flat_names if k in kwargs}`. -/
def matchedKwargsOf (flatNames : List String) (kwargs : List (String × PyVal)) :
    List String :=
  flatNames.filter fun k => (kwargs.lookup k).isSome

/-- `unmatched_kwargs = {k: v for (k, v) in kwargs.items() if k not in
matched_kwargs}`. -/
def unmatchedKwargsOf (flatNames : List String) (kwargs : List (String × PyVal)) :
    List (String × PyVal) :=
  kwargs.filter fun kv => !((matchedKwargsOf flatNames kwargs).contains kv.1)

/-- `num_components_specified = len(args) + len(kwargs) - len(unmatched_kwargs)`. -/
def numComponentsSpecifiedOf (args : List PyVal) (flatNames : List String)
    (kwargs : List (String × PyVal)) : Nat :=
  args.length + kwargs.length - (unmatchedKwargsOf flatNames kwargs).length

/-- The body of `_resolve_value_from_args` after the `value`-kwarg escape
hatch: `kwargs1` is the keyword dict with `value` already popped. -/
def resolveFromArgsNoValue (args : List PyVal) (kwargs1 : List (String × PyVal))
    (dtype : DTypeStruct) (flatNames : List String)
    (dtypeFlattenFn : DTypeStruct → List DTypeStruct)
    (modelUnflattenFn : List PyVal → PyVal) :
    Except ResolveError (PyVal × List (String × PyVal)) :=
  let matchedKwargs := matchedKwargsOf flatNames kwargs1
  let unmatchedKwargs := unmatchedKwargsOf flatNames kwargs1
  if args.length = 1 ∧ matchedKwargs = [] then
    -- `args[0]` (the branch guard guarantees a sole positional argument).
    let arg0 := args.headD (PyStruct.atom Option.none)
    if pyLen dtype > 1 then .ok (arg0, unmatchedKwargs)
    else
      match dtypeFlattenFn dtype with
      | [] => .error .indexError  -- `model_flatten_fn(dtype)[0]` on an empty model
      | firstComponentDtype :: _ =>
        -- `tf.nest.assert_same_structure(..., check_types=False)`; any
        -- `ValueError`/`TypeError` during the check falls back to the
        -- whole-value interpretation.
        if sameStructure firstComponentDtype arg0 then
          .ok (modelUnflattenFn args, unmatchedKwargs)
        else .ok (arg0, unmatchedKwargs)
  else
    let numComponentsSpecified := numComponentsSpecifiedOf args flatNames kwargs1
    if numComponentsSpecified ≠ flatNames.length then
      .error (.countMismatch flatNames numComponentsSpecified args kwargs1)
    else if !args.isEmpty && isUnorderedDict dtype then
      .error (.unorderedPositionalArgs args)
    else
      match buildFlatValue flatNames kwargs1 args with
      | some flatVals => .ok (modelUnflattenFn flatVals, unmatchedKwargs)
      | none => .error .indexError

/-- `_resolve_value_from_args` (joint_distribution.py).  The Python function
takes one untyped `model_flatten_fn` used both on the dtype structure and on
values; in this typed embedding it is split into `dtypeFlattenFn` (its use on
`dtype`) and `modelUnflattenFn`.  Returns the resolved value together with
the unmatched keyword arguments, or the error raised. -/
def resolveValueFromArgs (args : List PyVal) (kwargs : List (String × PyVal))
    (dtype : DTypeStruct) (flatNames : List String)
    (dtypeFlattenFn : DTypeStruct → List DTypeStruct)
    (modelUnflattenFn : List PyVal → PyVal) :
    Except ResolveError (PyVal × List (String × PyVal)) :=
  -- `value = kwargs.pop('value', None)` (absent key and a `None` value both
  -- leave `value` as `None`); `if value is not None: return value, kwargs`.
  let value := (kwargs.lookup "value").getD (PyStruct.atom Option.none)
  let kwargs1 := removeKey "value" kwargs
  if !value.isNoneVal then .ok (value, kwargs1)
  else resolveFromArgsNoValue args kwargs1 dtype flatNames dtypeFlattenFn modelUnflattenFn

/-- `JointDistributionSequential._model_flatten` applied to a (list-shaped)
structure: its top-level entries. -/
def seqFlatten : PyStruct α → List (PyStruct α)
  | .atom a => [.atom a]
  | .list xs => xs
  | .dict _ xs => xs.map (·.2)

/-- `JointDistributionSequential._model_unflatten`: assemble the flat parts
as the model's native list structure. -/
def seqUnflatten (xs : List PyVal) : PyVal := .list xs

/-- The flat value assembly as the specification words it: walk declared
component names in order, taking each component from the keywords if its name
is present there and otherwise from the *next unused* positional argument in
order. -/
def specBuildNextUnused : List String → List (String × PyVal) → List PyVal →
    Option (List PyVal)
  | [], _, _ => some []
  | k :: rest, kwargs, args =>
    match kwargs.lookup k with
    | some v => (specBuildNextUnused rest kwargs args).map (v :: ·)
    | none =>
      match args with
      | a :: argsRest => (specBuildNextUnused rest kwargs argsRest).map (a :: ·)
      | [] => none

/-- A scalar tensor value (e.g. the literal `4.` passed to `log_prob`). -/
def tv (n : Int) : PyVal := .atom (some ⟨[], [n]⟩)

/-- The dtype of a 1-component sequential model with a scalar component. -/
def seqDtype1 : DTypeStruct := .list [.atom ()]

/-- The dtype of a 3-component sequential model with scalar components. -/
def seqDtype3 : DTypeStruct := .list [.atom (), .atom (), .atom ()]

/-- The declared component names of the spec's 3-component model. -/
def namesZYX : List String := ["z", "y", "x"]

/-! Tensors and the joint measure methods.  Tensor arithmetic follows the
backend's broadcasting semantics (right-aligned shapes, size-1 axes
stretch). -/

/-- Broadcast two axis sizes (`a = b`, or one of them is 1). -/
def bcastDim (a b : Nat) : Option Nat :=
  if a = b then some a
  else if a = 1 then some b
  else if b = 1 then some a
  else none

/-- Broadcast two shapes given in reversed (innermost-first) order. -/
def bcastShapeRev : List Nat → List Nat → Option (List Nat)
  | [], t => some t
  | s, [] => some s
  | a :: s, b :: t => do
      let d ← bcastDim a b
      let r ← bcastShapeRev s t
      some (d :: r)

/-- Broadcast two shapes (right-aligned). -/
def bcastShape (s t : List Nat) : Option (List Nat) :=
  (bcastShapeRev s.reverse t.reverse).map List.reverse

/-- Row-major linear index of `coords` in `shape`. -/
def linIndex (shape coords : List Nat) : Nat :=
  (shape.zip coords).foldl (fun acc dc => acc * dc.1 + dc.2) 0

/-- Read a tensor at a (broadcast) multi-index of an enclosing result shape:
leading axes are dropped and size-1 axes read index 0. -/
def tensorGetB (t : Tensor) (idx : List Nat) : Int :=
  let idxr := idx.drop (idx.length - t.shape.length)
  let coords := (idxr.zip t.shape).map fun cd => if cd.2 = 1 then 0 else cd.1
  t.data.getD (linIndex t.shape coords) 0

/-- All multi-indices of a shape, in row-major order. -/
def allIndices : List Nat → List (List Nat)
  | [] => [[]]
  | d :: rest => (List.range d).flatMap fun i => (allIndices rest).map (i :: ·)

/-- Elementwise broadcasting addition; `none` when the shapes are not
broadcast-compatible (the backend raises). -/
def tensorAdd (a b : Tensor) : Option Tensor :=
  (bcastShape a.shape b.shape).map fun sh =>
    ⟨sh, (allIndices sh).map fun idx => tensorGetB a idx + tensorGetB b idx⟩

/-- Python's integer `0`, the start value of `sum(...)`, as a scalar. -/
def scalarZeroTensor : Tensor := ⟨[], [0]⟩

/-- Python `sum(tuple_of_tensors)`: fold broadcasting addition from `0`. -/
def tensorSum (xs : List Tensor) : Option Tensor :=
  xs.foldlM tensorAdd scalarZeroTensor

/-- Errors raised by the joint measure methods, with the data each message
interpolates. -/
inductive JointError where
  | noneInValue (value : PyVal)  -- 'No value part can be None; saw: ...'
  | broadcastMismatch  -- 'Broadcasting probably indicates an error in model specification.'
  | incompatibleShapes  -- backend error from summing non-broadcastable parts

/-- A concrete component distribution as the measure walk consumes it: its
`log_prob` and `prob` measure functions (the `getattr(d, attr)` targets). -/
structure CompDist where
  logProbFn : PyVal → Tensor
  probFn : PyVal → Tensor

/-- The `attr` argument of `_map_measure_over_dists`. -/
inductive MeasureKind where
  | logProbM
  | probM

/-- `getattr(d, attr)`. -/
def CompDist.measureFn (d : CompDist) : MeasureKind → (PyVal → Tensor)
  | .logProbM => d.logProbFn
  | .probM => d.probFn

/-- A `JointDistribution`: the base class is abstract over
`_model_flatten` / `_model_unflatten` and `_flat_sample_distributions`
(supplied by each concrete joint-model kind), so they are fields here.
`flatSampleDists` receives the already-flattened pinned value (the base class
flattens before calling it) and returns the per-component concrete
distributions and the corresponding pinned/sampled values. -/
structure JointDist where
  validateArgs : Bool
  modelFlatten : PyVal → List PyVal
  modelUnflatten : List PyVal → PyVal
  flatSampleDists : Option (List PyVal) → List CompDist × List PyVal

/-- `np.all(a == b)` on two 1-D numpy shape arrays: with equal lengths the
comparison is elementwise; a length-one (or empty) array broadcasts against
the other, so the comparison also holds when the elementwise broadcast
comparison is vacuously or uniformly true (e.g. shape arrays `[]` vs `[5]`,
or `[2]` vs `[2, 2]`); arrays that cannot broadcast (different lengths,
neither of length one) compare as `False` (legacy numpy elementwise-compare
behavior; newer numpy raises there, still an error path). -/
def npAllShapeEq (a b : List Nat) : Bool :=
  if a.length = b.length then a == b
  else if a.length = 1 then b.all fun d => d == a.headD 0
  else if b.length = 1 then a.all fun d => d == b.headD 0
  else false

/-- `maybe_check_wont_broadcast(flat_xs, validate_args)`: without
`validate_args` the parts pass through unchanged; with it, every adjacent
pair of per-part shape arrays (`zip(s[1:], s[:-1])`) must satisfy
`np.all(a == b)` — numpy's broadcasting comparison, not strict shape
equality — or the broadcast error is raised.  Shapes are always statically
known in this embedding, so the static (`is_numpy`) branch of the source
applies. -/
def maybeCheckWontBroadcast (flatXs : List Tensor) (validateArgs : Bool) :
    Except JointError (List Tensor) :=
  if !validateArgs then .ok flatXs
  else
    let s := flatXs.map Tensor.shape
    if (s.tail.zip s).all (fun ab => npAllShapeEq ab.1 ab.2) then .ok flatXs
    else .error .broadcastMismatch

/-- `_map_measure_over_dists(attr, value)`: reject any `None` part, then walk
`zip(ds, xs)` from `_call_flat_sample_distributions(value=value, ...)`
applying `getattr(d, attr)(x)`. -/
def mapMeasureOverDists (jd : JointDist) (attr : MeasureKind) (value : PyVal) :
    Except JointError (List Tensor) :=
  if (pyFlatten value).any (fun a => a.isNone) then .error (.noneInValue value)
  else
    let dsxs := jd.flatSampleDists (some (jd.modelFlatten value))
    .ok ((dsxs.1.zip dsxs.2).map fun dx => dx.1.measureFn attr dx.2)

/-- Embed the backend result of `sum(...)` into the error monad. -/
def sumTensorsE (ts : List Tensor) : Except JointError Tensor :=
  match tensorSum ts with
  | some t => .ok t
  | none => .error .incompatibleShapes

/-- `JointDistribution._log_prob(value)`:
`sum(maybe_check_wont_broadcast(xs, validate_args))`. -/
def jointLogProb (jd : JointDist) (value : PyVal) : Except JointError Tensor := do
  let xs ← mapMeasureOverDists jd .logProbM value
  let checked ← maybeCheckWontBroadcast xs jd.validateArgs
  sumTensorsE checked

/-- `JointDistribution.log_prob_parts(value)`. -/
def jointLogProbParts (jd : JointDist) (value : PyVal) :
    Except JointError PyVal := do
  let xs ← mapMeasureOverDists jd .logProbM value
  let checked ← maybeCheckWontBroadcast xs jd.validateArgs
  .ok (jd.modelUnflatten (checked.map fun t => PyStruct.atom (some t)))

/-- `JointDistribution.prob_parts(value)`. -/
def jointProbParts (jd : JointDist) (value : PyVal) :
    Except JointError PyVal := do
  let xs ← mapMeasureOverDists jd .probM value
  let checked ← maybeCheckWontBroadcast xs jd.validateArgs
  .ok (jd.modelUnflatten (checked.map fun t => PyStruct.atom (some t)))

/-- `JointDistribution` implements only `_log_prob`, so the base class's
`_call_prob` derives `prob` as `tf.exp(self._log_prob(value))`; the backend's
elementwise `tf.exp` is the parameter `texp`. -/
def jointProb (texp : Tensor → Tensor) (jd : JointDist) (value : PyVal) :
    Except JointError Tensor :=
  (jointLogProb jd value).map texp

/-- The tensors held at the atoms of a flat part list. -/
def atomTensors (l : List PyVal) : List Tensor :=
  l.filterMap fun p =>
    match p with
    | .atom (some t) => some t
    | _ => none

/-- A component distribution that reads its value tensor back (a convenient
concrete instantiation for witnesses). -/
def compReadback : CompDist where
  logProbFn := fun v =>
    match v with
    | .atom (some t) => t
    | _ => ⟨[], [0]⟩
  probFn := fun v =>
    match v with
    | .atom (some t) => t
    | _ => ⟨[], [1]⟩

/-- A 2-component independent sequential joint model over scalar components,
without argument validation. -/
def jdPair : JointDist where
  validateArgs := false
  modelFlatten := seqFlatten
  modelUnflatten := seqUnflatten
  flatSampleDists := fun ov =>
    match ov with
    | some xs => ([compReadback, compReadback], xs)
    | none => ([compReadback, compReadback], [tv 0, tv 0])

/-- The same 2-component model with `validate_args` set. -/
def jdPairValidated : JointDist where
  validateArgs := true
  modelFlatten := seqFlatten
  modelUnflatten := seqUnflatten
  flatSampleDists := fun ov =>
    match ov with
    | some xs => ([compReadback, compReadback], xs)
    | none => ([compReadback, compReadback], [tv 0, tv 0])

/-! The base `Distribution` class (distribution.py): derived `prob` /
`log_prob` dispatch, the `parameters` property, and `copy`. -/

/-- Error raised when neither measure primitive is implemented:
`NotImplementedError('<method> is not implemented: <type name>')`. -/
inductive BaseMeasureError where
  | notImplemented (method : String) (typeName : String)

/-- A base `Distribution` subtype as `_call_log_prob` / `_call_prob` probe it:
`hasattr(self, '_log_prob')` / `hasattr(self, '_prob')` become `Option`
fields. -/
structure BaseDist where
  typeName : String
  logProbPrim : Option (PyVal → Tensor)
  probPrim : Option (PyVal → Tensor)

/-- `Distribution._call_log_prob(value)`: use `_log_prob` if present, else
`tf.math.log(self._prob(value))` (the backend's elementwise `tf.math.log` is
the parameter `tlog`), else raise.  The preceding `_cast_structure` /
`convert_to_nested_tensor` value conversion lives outside `src/` and is the
identity on already-converted in-support values. -/
def callLogProb (tlog : Tensor → Tensor) (d : BaseDist) (value : PyVal) :
    Except BaseMeasureError Tensor :=
  match d.logProbPrim with
  | some lp => .ok (lp value)
  | none =>
    match d.probPrim with
    | some p => .ok (tlog (p value))
    | none => .error (.notImplemented "log_prob" d.typeName)

/-- `Distribution._call_prob(value)`: use `_prob` if present, else
`tf.exp(self._log_prob(value))`, else raise. -/
def callProb (texp : Tensor → Tensor) (d : BaseDist) (value : PyVal) :
    Except BaseMeasureError Tensor :=
  match d.probPrim with
  | some p => .ok (p value)
  | none =>
    match d.logProbPrim with
    | some lp => .ok (texp (lp value))
    | none => .error (.notImplemented "prob" d.typeName)

/-- A constructor-argument value recorded in `self._parameters`: either a
reference to the instance itself (what sanitization removes) or any other
(opaque) argument. -/
inductive ParamVal where
  | selfRef : ParamVal
  | intVal : Int → ParamVal
deriving DecidableEq

/-- `self._parameters` may be stored as a plain dict or as a deferred
callable (`self._parameters() if callable(self._parameters) else
self._parameters`). -/
inductive ParamsRepr where
  | plain : List (String × ParamVal) → ParamsRepr
  | thunk : (Unit → List (String × ParamVal)) → ParamsRepr

/-- The per-instance state the `parameters` property and `copy` touch.
`provenance` records which original instance a slice/copy derived from (set
only by the batch-slicing path); `supportsSlicing` is whether the concrete
type implements `_parameter_properties` (otherwise `_params_event_ndims`
raises `NotImplementedError`). -/
structure DistState where
  instId : Nat
  storedParams : ParamsRepr
  parametersSanitized : Bool
  supportsSlicing : Bool
  provenance : Option Nat

/-- Evaluate the stored parameter representation. -/
def evalParams : ParamsRepr → List (String × ParamVal)
  | .plain l => l
  | .thunk f => f ()

/-- Python `k.startswith('__')`: the first two characters are underscores. -/
def startsWithDunder (k : String) : Bool :=
  match k.data with
  | '_' :: '_' :: _ => true
  | _ => false

/-- `{k: v for k, v in p.items() if not k.startswith('__') and v is not
self}`. -/
def sanitizeParams (p : List (String × ParamVal)) : List (String × ParamVal) :=
  p.filter fun kv => !(startsWithDunder kv.1) && kv.2 != ParamVal.selfRef

/-- The `Distribution.parameters` property: sanitize lazily on first read,
cache the sanitized dict and set `_parameters_sanitized`, and return
`dict(self._parameters)` (a copy, so callers mutating it cannot affect the
stored mapping). -/
def readParameters (s : DistState) : List (String × ParamVal) × DistState :=
  if s.parametersSanitized then (evalParams s.storedParams, s)
  else
    let p := evalParams s.storedParams
    let cleaned := sanitizeParams p
    (cleaned, { s with storedParams := .plain cleaned, parametersSanitized := true })

/-- Python `dict(d, **o)`: existing keys keep their position but take the
override value; new keys are appended. -/
def dictUpdate (d o : List (String × ParamVal)) : List (String × ParamVal) :=
  (d.map fun kv =>
    match o.lookup kv.1 with
    | some v => (kv.1, v)
    | none => kv)
  ++ o.filter fun kv => (d.lookup kv.1).isNone

/-- Modelled from the spec: `slicing.batch_slice` (internal/slicing.py) is
not under `src/`.  Per the spec, the slicing path `copy` prefers produces a
new instance from `dict(self.parameters, **overrides)` while preserving
provenance (which original instance the copy derived from), and is
unavailable (`NotImplementedError`, i.e. `none`) when the type lacks
parameter properties. -/
def batchSliceCopy (s : DistState) (overrides : List (String × ParamVal)) :
    Option DistState :=
  if !s.supportsSlicing then none
  else
    let pr := readParameters s
    some { instId := s.instId + 1,
           storedParams := .plain (dictUpdate pr.1 overrides),
           parametersSanitized := true,
           supportsSlicing := s.supportsSlicing,
           provenance := some s.instId }

/-- `Distribution.copy(**override_parameters_kwargs)`: try the batch-slicing
path; on `NotImplementedError` fall back to reconstructing via the
constructor from `dict(self.parameters, **overrides)`, overwriting the new
instance's `_parameters` with that dict and flagging it sanitized. -/
def distCopy (s : DistState) (overrides : List (String × ParamVal)) :
    DistState :=
  match batchSliceCopy s overrides with
  | some d => d
  | none =>
    let pr := readParameters s
    let parameters := dictUpdate pr.1 overrides
    { instId := s.instId + 1,
      storedParams := .plain parameters,
      parametersSanitized := true,
      supportsSlicing := s.supportsSlicing,
      provenance := none }

/-- A fresh instance whose raw parameters hold a dunder key and a
self-reference (as `parameters = dict(locals())` produces). -/
def sampleDistState : DistState where
  instId := 0
  storedParams := .plain
    [("loc", .intVal 0), ("__class__", .intVal 1), ("self", .selfRef)]
  parametersSanitized := false
  supportsSlicing := false
  provenance := none

/-- Modelled from the spec: `_get_window_sizes` lives in
`experimental/mcmc/windowed_sampling.py`, which is not under `src/` (only its
test is).  Per the spec, the first and last windows are fixed fractions of
the budget (75 and 75 for a budget of 525, with slow window unit 25, i.e.
budget / 21) and the last window absorbs the remainder so the three windows
sum exactly to the budget. -/
def getWindowSizes (numDraws : Nat) : Nat × Nat × Nat :=
  let slowWindowSize := numDraws / 21
  let firstWindowSize := 3 * slowWindowSize
  let lastWindowSize := numDraws - 15 * slowWindowSize - firstWindowSize
  (firstWindowSize, slowWindowSize, lastWindowSize)

theorem removeKey_eq_self (k : String) (l : List (String × PyVal))
    (h : l.lookup k = none) : removeKey k l = l := by
  induction l with
  | nil => rfl
  | cons hd tl ih =>
    rw [List.lookup] at h
    by_cases hk : k = hd.1
    · simp [hk] at h
    · have hbe : (k == hd.1) = false := beq_eq_false_iff_ne.mpr hk
      simp only [hbe] at h
      simp only [removeKey, List.filter] at ih ⊢
      rw [ih h]
      have hne : (hd.1 != k) = true := bne_iff_ne.mpr (Ne.symm hk)
      simp [hne]

theorem matchedKwargsOf_eq_nil (flatNames : List String)
    (kwargs : List (String × PyVal))
    (h : ∀ k ∈ flatNames, kwargs.lookup k = none) :
    matchedKwargsOf flatNames kwargs = [] := by
  simp only [matchedKwargsOf, List.filter_eq_nil_iff]
  intro k hk
  simp [h k hk]

theorem unmatchedKwargsOf_eq_self (flatNames : List String)
    (kwargs : List (String × PyVal))
    (h : matchedKwargsOf flatNames kwargs = []) :
    unmatchedKwargsOf flatNames kwargs = kwargs := by
  simp [unmatchedKwargsOf, h]

/-- C1: with exactly one positional argument, no `value` keyword and no
keyword naming a declared component, the resolver returns the sole argument
unchanged when the model declares more than one component; on a 1-component
model it wraps the argument via `model_unflatten` exactly when the argument
structurally matches the first component's declared dtype structure and
otherwise returns it as the whole value; in particular on a 1-component
scalar-dtype sequential model both `f(4.)` and `f([4.])` resolve to `[4.]`. -/
theorem single_positional_argument_resolution
    (a : PyVal) (kwargs : List (String × PyVal)) (dtype : DTypeStruct)
    (flatNames : List String) (dflat : DTypeStruct → List DTypeStruct)
    (uf : List PyVal → PyVal)
    (hv : kwargs.lookup "value" = none)
    (hm : ∀ k ∈ flatNames, kwargs.lookup k = none) :
    (pyLen dtype > 1 →
      resolveValueFromArgs [a] kwargs dtype flatNames dflat uf = .ok (a, kwargs))
    ∧ (∀ fcd rest, pyLen dtype = 1 → dflat dtype = fcd :: rest →
      resolveValueFromArgs [a] kwargs dtype flatNames dflat uf =
        .ok (if sameStructure fcd a then uf [a] else a, kwargs))
    ∧ resolveValueFromArgs [tv 4] [] seqDtype1 ["x0"] seqFlatten seqUnflatten
        = .ok (.list [tv 4], [])
    ∧ resolveValueFromArgs [.list [tv 4]] [] seqDtype1 ["x0"] seqFlatten
        seqUnflatten = .ok (.list [tv 4], []) := by
  have hk1 : removeKey "value" kwargs = kwargs := removeKey_eq_self _ _ hv
  have hmk : matchedKwargsOf flatNames kwargs = [] := matchedKwargsOf_eq_nil _ _ hm
  have hum : unmatchedKwargsOf flatNames kwargs = kwargs :=
    unmatchedKwargsOf_eq_self _ _ hmk
  refine ⟨?_, ?_, ?_, ?_⟩
  · intro hlen
    simp [resolveValueFromArgs, hv, PyStruct.isNoneVal, hk1,
      resolveFromArgsNoValue, hmk, hum, hlen]
  · intro fcd rest hlen hflat
    simp [resolveValueFromArgs, hv, PyStruct.isNoneVal, hk1,
      resolveFromArgsNoValue, hmk, hum, hlen, hflat]
    split <;> rfl
  · simp [resolveValueFromArgs, resolveFromArgsNoValue, sameStructure, skelToks,
      pyLen, removeKey, buildFlatValue, PyStruct.isNoneVal, matchedKwargsOf,
      unmatchedKwargsOf, seqFlatten, seqUnflatten, seqDtype1, tv]
  · simp [resolveValueFromArgs, resolveFromArgsNoValue, sameStructure, skelToks,
      pyLen, removeKey, buildFlatValue, PyStruct.isNoneVal, matchedKwargsOf,
      unmatchedKwargsOf, seqFlatten, seqUnflatten, seqDtype1, tv]

theorem single_positional_argument_resolution_witness :
    (List.lookup "value" ([] : List (String × PyVal)) = none)
    ∧ (∀ k ∈ namesZYX, List.lookup k ([] : List (String × PyVal)) = none)
    ∧ resolveValueFromArgs [tv 7] [] seqDtype3 namesZYX seqFlatten seqUnflatten
        = .ok (tv 7, []) :=
  ⟨rfl, by simp,
    (single_positional_argument_resolution (tv 7) [] seqDtype3 namesZYX
      seqFlatten seqUnflatten rfl (by simp)).1 (by simp [seqDtype3, pyLen])⟩

/-- C2 (amended): once the `value`/single-positional paths are skipped and the
count and positional-permission checks pass, the resolver walks declared
component names in order taking each component from the keywords if present
and otherwise from the positional argument at the component's declaration
index; the four concrete calls of the specification all resolve to
`[1., 2., 3.]`. -/
theorem positional_and_keyword_walk_resolution
    (args : List PyVal) (kwargs : List (String × PyVal)) (dtype : DTypeStruct)
    (flatNames : List String) (dflat : DTypeStruct → List DTypeStruct)
    (uf : List PyVal → PyVal)
    (hv : kwargs.lookup "value" = none)
    (hpath : ¬(args.length = 1 ∧ matchedKwargsOf flatNames kwargs = []))
    (hcount : numComponentsSpecifiedOf args flatNames kwargs = flatNames.length)
    (hord : isUnorderedDict dtype = false) :
    (∀ flatVals, buildFlatValue flatNames kwargs args = some flatVals →
      resolveValueFromArgs args kwargs dtype flatNames dflat uf =
        .ok (uf flatVals, unmatchedKwargsOf flatNames kwargs))
    ∧ resolveValueFromArgs [tv 1, tv 2, tv 3] [] seqDtype3 namesZYX seqFlatten
        seqUnflatten = .ok (.list [tv 1, tv 2, tv 3], [])
    ∧ resolveValueFromArgs [] [("z", tv 1), ("y", tv 2), ("x", tv 3)] seqDtype3
        namesZYX seqFlatten seqUnflatten = .ok (.list [tv 1, tv 2, tv 3], [])
    ∧ resolveValueFromArgs [tv 1, tv 2] [("x", tv 3)] seqDtype3 namesZYX
        seqFlatten seqUnflatten = .ok (.list [tv 1, tv 2, tv 3], [])
    ∧ resolveValueFromArgs [] [("value", .list [tv 1, tv 2, tv 3])] seqDtype3
        namesZYX seqFlatten seqUnflatten = .ok (.list [tv 1, tv 2, tv 3], []) := by
  have hk1 : removeKey "value" kwargs = kwargs := removeKey_eq_self _ _ hv
  refine ⟨?_, by rfl, by rfl, by rfl, by rfl⟩
  intro flatVals hbuild
  simp [resolveValueFromArgs, hv, PyStruct.isNoneVal, hk1,
    resolveFromArgsNoValue, hpath, hcount, hord, hbuild]

theorem positional_and_keyword_walk_resolution_witness :
    (¬(List.length [tv 1, tv 2] = 1
        ∧ matchedKwargsOf namesZYX [("x", tv 3)] = []))
    ∧ numComponentsSpecifiedOf [tv 1, tv 2] namesZYX [("x", tv 3)]
        = namesZYX.length
    ∧ resolveValueFromArgs [tv 1, tv 2] [("x", tv 3)] seqDtype3 namesZYX
        seqFlatten seqUnflatten = .ok (seqUnflatten [tv 1, tv 2, tv 3],
          unmatchedKwargsOf namesZYX [("x", tv 3)]) :=
  ⟨by simp [matchedKwargsOf, namesZYX], rfl,
    (positional_and_keyword_walk_resolution [tv 1, tv 2] [("x", tv 3)]
      seqDtype3 namesZYX seqFlatten seqUnflatten rfl
      (by simp [matchedKwargsOf, namesZYX]) rfl rfl).1 [tv 1, tv 2, tv 3] rfl⟩

/-- C2 counterexample: on the 3-component model `z, y, x`, the call
`f(1., 2., y=3.)` passes the count check, and the claimed "next unused
positional argument" rule would resolve it to `[1., 3., 2.]`; the code instead
indexes `args` at each component's declaration index and fails with an
`IndexError`. -/
theorem keyword_before_positional_index_error :
    resolveValueFromArgs [tv 1, tv 2] [("y", tv 3)] seqDtype3 namesZYX
      seqFlatten seqUnflatten = .error .indexError
    ∧ specBuildNextUnused namesZYX [("y", tv 3)] [tv 1, tv 2]
        = some [tv 1, tv 3, tv 2]
    ∧ resolveValueFromArgs [tv 1, tv 2] [("y", tv 3)] seqDtype3 namesZYX
        seqFlatten seqUnflatten ≠ .ok (.list [tv 1, tv 3, tv 2], []) :=
  ⟨rfl, rfl, fun h => Except.noConfusion h⟩

/-- C3: when neither the `value`-keyword path nor the single-positional path
is taken, the resolver fails with the count-mismatch `ValueError` carrying the
declared names, the detected count and the received `args`/`kwargs` if and
only if `num_components_specified` differs from the number of declared
components; e.g. `f(1., 2.)` on the 3-component model fails this way. -/
theorem count_mismatch_error_iff
    (args : List PyVal) (kwargs : List (String × PyVal)) (dtype : DTypeStruct)
    (flatNames : List String) (dflat : DTypeStruct → List DTypeStruct)
    (uf : List PyVal → PyVal)
    (hv : ((kwargs.lookup "value").getD (PyStruct.atom Option.none)).isNoneVal
      = true)
    (hpath : ¬(args.length = 1
      ∧ matchedKwargsOf flatNames (removeKey "value" kwargs) = [])) :
    (numComponentsSpecifiedOf args flatNames (removeKey "value" kwargs)
        ≠ flatNames.length →
      resolveValueFromArgs args kwargs dtype flatNames dflat uf =
        .error (.countMismatch flatNames
          (numComponentsSpecifiedOf args flatNames (removeKey "value" kwargs))
          args (removeKey "value" kwargs)))
    ∧ (numComponentsSpecifiedOf args flatNames (removeKey "value" kwargs)
        = flatNames.length →
      ∀ ns n as ks, resolveValueFromArgs args kwargs dtype flatNames dflat uf ≠
        .error (.countMismatch ns n as ks))
    ∧ resolveValueFromArgs [tv 1, tv 2] [] seqDtype3 namesZYX seqFlatten
        seqUnflatten = .error (.countMismatch namesZYX 2 [tv 1, tv 2] []) := by
  refine ⟨?_, ?_, by rfl⟩
  · intro hne
    simp [resolveValueFromArgs, hv, resolveFromArgsNoValue, hpath, hne]
  · intro heq ns n as ks
    simp only [resolveValueFromArgs, hv, Bool.not_true, Bool.false_eq_true,
      if_false, resolveFromArgsNoValue, if_neg hpath, heq]
    simp only [ne_eq, not_true_eq_false, if_false]
    split
    · intro h
      injection h with h2
      exact ResolveError.noConfusion h2
    · split
      · intro h
        exact Except.noConfusion h
      · intro h
        injection h with h2
        exact ResolveError.noConfusion h2

theorem count_mismatch_error_iff_witness :
    (((List.lookup "value" ([] : List (String × PyVal))).getD
        (PyStruct.atom Option.none)).isNoneVal = true)
    ∧ (¬(List.length [tv 1, tv 2] = 1
        ∧ matchedKwargsOf namesZYX (removeKey "value" []) = []))
    ∧ resolveValueFromArgs [tv 1, tv 2] [] seqDtype3 namesZYX seqFlatten
        seqUnflatten = .error (.countMismatch namesZYX
          (numComponentsSpecifiedOf [tv 1, tv 2] namesZYX (removeKey "value" []))
          [tv 1, tv 2] (removeKey "value" [])) :=
  ⟨rfl, by simp,
    (count_mismatch_error_iff [tv 1, tv 2] [] seqDtype3 namesZYX seqFlatten
      seqUnflatten rfl (by simp)).1 (by simp [numComponentsSpecifiedOf,
        unmatchedKwargsOf, matchedKwargsOf, removeKey, namesZYX])⟩

/-- C4 (amended): a keyword literally named `value` whose supplied value is
not `None` is returned outright as the resolved structure, with all remaining
keywords returned as unmatched, taking priority over every other resolution
rule; a `None`-valued `value` keyword is instead discarded and resolution
proceeds with the remaining arguments. -/
theorem value_kwarg_escape_hatch
    (args : List PyVal) (kwargs : List (String × PyVal)) (dtype : DTypeStruct)
    (flatNames : List String) (dflat : DTypeStruct → List DTypeStruct)
    (uf : List PyVal → PyVal) (v : PyVal)
    (hv : kwargs.lookup "value" = some v)
    (hn : v.isNoneVal = false) :
    resolveValueFromArgs args kwargs dtype flatNames dflat uf =
      .ok (v, removeKey "value" kwargs) := by
  simp [resolveValueFromArgs, hv, hn]

theorem value_kwarg_escape_hatch_witness :
    (List.lookup "value" [("value", .list [tv 1, tv 2]), ("name", tv 0)]
        = some (.list [tv 1, tv 2]))
    ∧ ((PyStruct.list [tv 1, tv 2]).isNoneVal = false)
    ∧ resolveValueFromArgs [tv 9] [("value", .list [tv 1, tv 2]), ("name", tv 0)]
        seqDtype3 namesZYX seqFlatten seqUnflatten =
        .ok (.list [tv 1, tv 2],
          removeKey "value" [("value", .list [tv 1, tv 2]), ("name", tv 0)]) :=
  ⟨rfl, rfl,
    value_kwarg_escape_hatch [tv 9] [("value", .list [tv 1, tv 2]), ("name", tv 0)]
      seqDtype3 namesZYX seqFlatten seqUnflatten (.list [tv 1, tv 2]) rfl rfl⟩

theorem exceptBindOk (a : α) (f : α → Except ε β) :
    (Except.ok a >>= f : Except ε β) = f a := rfl

theorem exceptBindErr (e : ε) (f : α → Except ε β) :
    (Except.error e >>= f : Except ε β) = Except.error e := rfl

theorem exceptMapErr (e : ε) (f : α → β) :
    (Except.error e : Except ε α).map f = Except.error e := rfl

theorem atomTensors_map_atom (ts : List Tensor) :
    atomTensors (ts.map fun t => PyStruct.atom (some t)) = ts := by
  induction ts with
  | nil => rfl
  | cons h t ih => simpa [atomTensors] using ih

/-- C5 (amended): the joint `_log_prob` is `sum(...)` of exactly the
per-component log-densities that `log_prob_parts` returns on the same value;
the shape check across per-component results is applied if and only if
`validate_args` is set, and without `validate_args` the parts pass through
unchanged.  The applied check compares adjacent per-part shape arrays with
numpy's broadcasting equality `np.all(a == b)` (see `npAllShapeEq`), not
strict shape equality, and raises the broadcast error exactly when some
adjacent pair fails it. -/
theorem joint_log_prob_is_sum_of_parts
    (jd : JointDist) (v : PyVal)
    (hinv : ∀ l, jd.modelFlatten (jd.modelUnflatten l) = l)
    (hfull : (pyFlatten v).all (fun a => a.isSome) = true) :
    (∀ parts, jointLogProbParts jd v = .ok parts →
      jointLogProb jd v = sumTensorsE (atomTensors (jd.modelFlatten parts)))
    ∧ (∀ xs, maybeCheckWontBroadcast xs false = .ok xs)
    ∧ (∀ xs, maybeCheckWontBroadcast xs true = .ok xs
        ∨ maybeCheckWontBroadcast xs true = .error .broadcastMismatch)
    ∧ (∀ xs, maybeCheckWontBroadcast xs true = .error .broadcastMismatch
        ↔ ¬(((xs.map Tensor.shape).tail.zip (xs.map Tensor.shape)).all
            (fun ab => npAllShapeEq ab.1 ab.2)) = true) := by
  refine ⟨?_, ?_, ?_, ?_⟩
  · intro parts hparts
    cases hxs : mapMeasureOverDists jd .logProbM v with
    | error e => simp [jointLogProbParts, hxs, exceptBindErr] at hparts
    | ok xs =>
      cases hch : maybeCheckWontBroadcast xs jd.validateArgs with
      | error e =>
        simp [jointLogProbParts, hxs, hch, exceptBindOk, exceptBindErr] at hparts
      | ok checked =>
        have hp : parts
            = jd.modelUnflatten (checked.map fun t => PyStruct.atom (some t)) := by
          simp [jointLogProbParts, hxs, hch, exceptBindOk] at hparts
          exact hparts.symm
        rw [hp, hinv, atomTensors_map_atom]
        simp [jointLogProb, hxs, hch, exceptBindOk]
  · intro xs
    simp [maybeCheckWontBroadcast]
  · intro xs
    simp only [maybeCheckWontBroadcast, Bool.not_true, Bool.false_eq_true,
      if_false]
    split
    · exact Or.inl rfl
    · exact Or.inr rfl
  · intro xs
    simp only [maybeCheckWontBroadcast, Bool.not_true, Bool.false_eq_true,
      if_false]
    constructor
    · intro h hall
      rw [if_pos hall] at h
      exact Except.noConfusion h
    · intro h
      rw [if_neg h]

theorem joint_log_prob_is_sum_of_parts_witness :
    (∀ l, jdPair.modelFlatten (jdPair.modelUnflatten l) = l)
    ∧ ((pyFlatten (PyStruct.list [tv 3, tv 5])).all (fun a => a.isSome) = true)
    ∧ ((∀ parts, jointLogProbParts jdPair (.list [tv 3, tv 5]) = .ok parts →
          jointLogProb jdPair (.list [tv 3, tv 5])
            = sumTensorsE (atomTensors (jdPair.modelFlatten parts)))
       ∧ (∀ xs, maybeCheckWontBroadcast xs false = .ok xs)
       ∧ (∀ xs, maybeCheckWontBroadcast xs true = .ok xs
           ∨ maybeCheckWontBroadcast xs true = .error .broadcastMismatch)
       ∧ (∀ xs, maybeCheckWontBroadcast xs true = .error .broadcastMismatch
           ↔ ¬(((xs.map Tensor.shape).tail.zip (xs.map Tensor.shape)).all
               (fun ab => npAllShapeEq ab.1 ab.2)) = true)) :=
  ⟨fun _ => rfl, by simp [pyFlatten, tv],
    joint_log_prob_is_sum_of_parts jdPair (.list [tv 3, tv 5]) (fun _ => rfl)
      (by simp [pyFlatten, tv])⟩

/-- C5 counterexample: with `validate_args` set, per-component results whose
shapes differ (and genuinely broadcast, e.g. `(2,)` against `(2, 2)`, or a
scalar `()` against `(5,)`) are NOT rejected: `np.all(a == b)` broadcasts the
shape-array comparison, so the validated check passes them and
`log_prob_parts` succeeds where the claimed equal-shape check would raise. -/
theorem validated_check_passes_rank_mismatched_shapes :
    (Tensor.mk [2] [1, 2]).shape ≠ (Tensor.mk [2, 2] [1, 2, 3, 4]).shape
    ∧ maybeCheckWontBroadcast [⟨[2], [1, 2]⟩, ⟨[2, 2], [1, 2, 3, 4]⟩] true
        = .ok [⟨[2], [1, 2]⟩, ⟨[2, 2], [1, 2, 3, 4]⟩]
    ∧ maybeCheckWontBroadcast [⟨[2], [1, 2]⟩, ⟨[2, 2], [1, 2, 3, 4]⟩] true
        ≠ .error .broadcastMismatch
    ∧ maybeCheckWontBroadcast [⟨[], [7]⟩, ⟨[5], [1, 2, 3, 4, 5]⟩] true
        = .ok [⟨[], [7]⟩, ⟨[5], [1, 2, 3, 4, 5]⟩]
    ∧ jointLogProbParts jdPairValidated
        (.list [.atom (some ⟨[2], [1, 2]⟩), .atom (some ⟨[2, 2], [1, 2, 3, 4]⟩)])
        = .ok (.list [.atom (some ⟨[2], [1, 2]⟩),
            .atom (some ⟨[2, 2], [1, 2, 3, 4]⟩)]) := by
  refine ⟨by decide, rfl, fun h => Except.noConfusion h, rfl, ?_⟩
  simp [jointLogProbParts, mapMeasureOverDists, pyFlatten, jdPairValidated,
    seqFlatten, seqUnflatten, compReadback, CompDist.measureFn,
    maybeCheckWontBroadcast, npAllShapeEq, exceptBindOk]

/-- C10: every measure method that maps over components (`log_prob`, `prob`,
`log_prob_parts`, `prob_parts`) fails with the `ValueError` naming the
offending value whenever any part of the supplied value structure is
`None`. -/
theorem measure_methods_reject_none_parts
    (jd : JointDist) (v : PyVal)
    (hnone : (pyFlatten v).any (fun a => a.isNone) = true) :
    jointLogProb jd v = .error (.noneInValue v)
    ∧ (∀ texp, jointProb texp jd v = .error (.noneInValue v))
    ∧ jointLogProbParts jd v = .error (.noneInValue v)
    ∧ jointProbParts jd v = .error (.noneInValue v) := by
  have hm : ∀ attr, mapMeasureOverDists jd attr v = .error (.noneInValue v) := by
    intro attr
    simp [mapMeasureOverDists, hnone]
  refine ⟨?_, ?_, ?_, ?_⟩
  · simp [jointLogProb, hm, exceptBindErr]
  · intro texp
    simp [jointProb, jointLogProb, hm, exceptBindErr, exceptMapErr]
  · simp [jointLogProbParts, hm, exceptBindErr]
  · simp [jointProbParts, hm, exceptBindErr]

theorem measure_methods_reject_none_parts_witness :
    ((pyFlatten (PyStruct.list [tv 3, PyStruct.atom Option.none])).any
        (fun a => a.isNone) = true)
    ∧ jointLogProb jdPair (.list [tv 3, .atom Option.none])
        = .error (.noneInValue (.list [tv 3, .atom Option.none])) :=
  ⟨by simp [pyFlatten, tv],
    (measure_methods_reject_none_parts jdPair (.list [tv 3, .atom Option.none])
      (by simp [pyFlatten, tv])).1⟩

/-- C6: for a subtype implementing only the `_log_prob` primitive, the public
`prob(x)` is `exp(log_prob(x))`; symmetrically, with only `_prob`,
`log_prob(x)` is `log(prob(x))`; with neither primitive both public methods
fail with the NotImplemented error. -/
theorem prob_log_prob_derivation
    (texp tlog : Tensor → Tensor) (d : BaseDist) (x : PyVal) :
    (∀ f, d.logProbPrim = some f → d.probPrim = none →
      callProb texp d x = .ok (texp (f x)) ∧ callLogProb tlog d x = .ok (f x))
    ∧ (∀ g, d.probPrim = some g → d.logProbPrim = none →
      callLogProb tlog d x = .ok (tlog (g x)) ∧ callProb texp d x = .ok (g x))
    ∧ (d.logProbPrim = none → d.probPrim = none →
      callLogProb tlog d x = .error (.notImplemented "log_prob" d.typeName)
      ∧ callProb texp d x = .error (.notImplemented "prob" d.typeName)) := by
  refine ⟨?_, ?_, ?_⟩
  · intro f hlp hp
    simp [callProb, callLogProb, hlp, hp]
  · intro g hp hlp
    simp [callProb, callLogProb, hlp, hp]
  · intro hlp hp
    simp [callProb, callLogProb, hlp, hp]

theorem prob_log_prob_derivation_witness :
    (BaseDist.mk "TestDist" (some fun _ => ⟨[], [2]⟩) none).logProbPrim
        = some (fun _ => (⟨[], [2]⟩ : Tensor))
    ∧ (BaseDist.mk "TestDist" (some fun _ => ⟨[], [2]⟩) none).probPrim = none
    ∧ callProb (fun t : Tensor => (⟨t.shape, t.data.map (· * 3)⟩ : Tensor))
        (BaseDist.mk "TestDist" (some fun _ => ⟨[], [2]⟩) none) (tv 0)
        = .ok ((fun t : Tensor => (⟨t.shape, t.data.map (· * 3)⟩ : Tensor)) ⟨[], [2]⟩)
    ∧ callLogProb (fun t => t)
        (BaseDist.mk "TestDist" (some fun _ => ⟨[], [2]⟩) none) (tv 0)
        = .ok ⟨[], [2]⟩ :=
  ⟨rfl, rfl,
    ((prob_log_prob_derivation (fun t : Tensor => (⟨t.shape, t.data.map (· * 3)⟩ : Tensor))
        (fun t => t) (BaseDist.mk "TestDist" (some fun _ => ⟨[], [2]⟩) none)
        (tv 0)).1 (fun _ => ⟨[], [2]⟩) rfl rfl).1,
    ((prob_log_prob_derivation (fun t : Tensor => (⟨t.shape, t.data.map (· * 3)⟩ : Tensor))
        (fun t => t) (BaseDist.mk "TestDist" (some fun _ => ⟨[], [2]⟩) none)
        (tv 0)).1 (fun _ => ⟨[], [2]⟩) rfl rfl).2⟩

/-- C7: the window scheduler splits every adaptation budget `N` into
`(first_window, slow_window_unit, last_window)` with
`first + slow * (1 + 2 + 4 + 8) + last = N` exactly (in particular for each
`N` in `{0, 1, 100, 524, 525, 10000}`), and returns `(75, 25, 75)` for
`N = 525`. -/
theorem window_sizes_sum_exact :
    (∀ n : Nat, (getWindowSizes n).1
        + (getWindowSizes n).2.1 * (1 + 2 + 4 + 8)
        + (getWindowSizes n).2.2 = n)
    ∧ getWindowSizes 525 = (75, 25, 75)
    ∧ (∀ n ∈ [0, 1, 100, 524, 525, 10000],
        (getWindowSizes n).1 + (getWindowSizes n).2.1 * (1 + 2 + 4 + 8)
          + (getWindowSizes n).2.2 = n) := by
  have hgen : ∀ n : Nat, (getWindowSizes n).1
      + (getWindowSizes n).2.1 * (1 + 2 + 4 + 8)
      + (getWindowSizes n).2.2 = n := by
    intro n
    have h : n / 21 * 21 ≤ n := Nat.div_mul_le_self n 21
    simp only [getWindowSizes]
    omega
  exact ⟨hgen, by decide, fun n _ => hgen n⟩

theorem dictUpdate_nil (d : List (String × ParamVal)) : dictUpdate d [] = d := by
  simp [dictUpdate]

/-- C8: `copy()` with no overrides produces an instance whose `parameters`
mapping equals the original's; in general the copy's parameters are
`dict(self.parameters, **overrides)`, and the batch-slicing path (recording
provenance) is taken exactly when the type supports it, the constructor path
otherwise. -/
theorem copy_parameters
    (s : DistState) (overrides : List (String × ParamVal)) :
    (readParameters (distCopy s [])).1 = (readParameters s).1
    ∧ (readParameters (distCopy s overrides)).1
        = dictUpdate (readParameters s).1 overrides
    ∧ (s.supportsSlicing = true →
        (distCopy s overrides).provenance = some s.instId)
    ∧ (s.supportsSlicing = false → (distCopy s overrides).provenance = none) := by
  have hgen : ∀ o, (readParameters (distCopy s o)).1
      = dictUpdate (readParameters s).1 o := by
    intro o
    cases hs : s.supportsSlicing with
    | true => simp [distCopy, batchSliceCopy, hs, readParameters, evalParams]
    | false => simp [distCopy, batchSliceCopy, hs, readParameters, evalParams]
  refine ⟨?_, hgen overrides, ?_, ?_⟩
  · rw [hgen [], dictUpdate_nil]
  · intro hs
    simp [distCopy, batchSliceCopy, hs]
  · intro hs
    simp [distCopy, batchSliceCopy, hs]

theorem copy_parameters_witness :
    (readParameters (distCopy sampleDistState [])).1
      = (readParameters sampleDistState).1
    ∧ (sampleDistState.supportsSlicing = false →
        (distCopy sampleDistState []).provenance = none)
    ∧ (readParameters (distCopy sampleDistState [])).1 = [("loc", .intVal 0)] :=
  ⟨(copy_parameters sampleDistState []).1,
    (copy_parameters sampleDistState []).2.2.2,
    by rw [(copy_parameters sampleDistState []).1]
       decide⟩

/-- C9: the `parameters` property is stable once first read -- a second read
returns the same mapping with the state unchanged, so sanitization happens at
most once -- and on a fresh (not-yet-sanitized) instance the returned mapping
contains no entry whose value is the instance itself (and no dunder key). -/
theorem parameters_stable_and_excludes_self (s : DistState) :
    (readParameters (readParameters s).2).1 = (readParameters s).1
    ∧ (readParameters (readParameters s).2).2 = (readParameters s).2
    ∧ (readParameters s).2.parametersSanitized = true
    ∧ (s.parametersSanitized = false →
        ∀ kv ∈ (readParameters s).1,
          kv.2 ≠ ParamVal.selfRef ∧ ¬(startsWithDunder kv.1) = true) := by
  cases hs : s.parametersSanitized with
  | true =>
    refine ⟨?_, ?_, ?_, ?_⟩
    · simp [readParameters, hs]
    · simp [readParameters, hs]
    · simp [readParameters, hs]
    · intro h
      exact absurd h (by simp)
  | false =>
    refine ⟨?_, ?_, ?_, ?_⟩
    · simp [readParameters, hs, evalParams]
    · simp [readParameters, hs, evalParams]
    · simp [readParameters, hs]
    · intro _ kv hkv
      simp only [readParameters, hs, Bool.false_eq_true, if_false] at hkv
      simp only [sanitizeParams, List.mem_filter, Bool.and_eq_true,
        Bool.not_eq_eq_eq_not, Bool.not_true, bne_iff_ne, ne_eq] at hkv
      exact ⟨hkv.2.2, by simp [hkv.2.1]⟩

theorem parameters_stable_and_excludes_self_witness :
    (sampleDistState.parametersSanitized = false)
    ∧ (∀ kv ∈ (readParameters sampleDistState).1,
        kv.2 ≠ ParamVal.selfRef ∧ ¬(startsWithDunder kv.1) = true)
    ∧ (readParameters (readParameters sampleDistState).2).1
        = (readParameters sampleDistState).1 :=
  ⟨rfl,
    (parameters_stable_and_excludes_self sampleDistState).2.2.2 rfl,
    (parameters_stable_and_excludes_self sampleDistState).1⟩

/-- C4 counterexample: the call `f(value=None)` on a 1-component model has a
keyword literally named `value`, but the supplied `None` is not returned
outright: the code treats it as unsupplied and fails the component count
check. -/
theorem none_valued_value_kwarg_not_returned :
    resolveValueFromArgs [] [("value", PyStruct.atom Option.none)] seqDtype1
      ["x0"] seqFlatten seqUnflatten = .error (.countMismatch ["x0"] 0 [] [])
    ∧ resolveValueFromArgs [] [("value", PyStruct.atom Option.none)] seqDtype1
        ["x0"] seqFlatten seqUnflatten
        ≠ .ok (PyStruct.atom Option.none, []) :=
  ⟨rfl, fun h => Except.noConfusion h⟩

end Probability
